import Mathlib

/-!
Verification of the go-fraud fraud-proof dissemination service.

The development shallowly embeds the Go sources: `fraudserv/service.go`
(the `processIncoming` validation pipeline, `Broadcast`, `Stop`,
`AddVerifier`, `verifyLocal`, `put`), `registry.go`
(`MultiUnmarshaler`), and `proof.go` (`ErrNoUnmarshaler`).  External
collaborators (pubsub transport, header fetchers, registered verifier
functions, registered unmarshal functions) are modelled as parameters
whose results are supplied in an `Env` record; machine `uint64`
arithmetic is modelled as `Nat` with explicit reduction modulo `2 ^ 64`
where Go overflow can occur.  Go `error` values compared by
`errors.Is` are modelled with explicit allocation identities (`ErrPtr`),
because `errors.Is` on a target without an `Is` method is pointer
equality.
-/

namespace GoFraud

/-- `ProofType` is an opaque string identifier (proof.go). -/
abbrev ProofType := String

/-- Raw message bytes, modelled as a list of byte values. -/
abbrev Bytes := List Nat

/-- The size of the `uint64` value space. -/
def UINT64 : Nat := 2 ^ 64

/-- `headThreshold uint64 = 20` (service.go). -/
def headThreshold : Nat := 20

/-- Association-list lookup, modelling a Go map read. -/
def alookup {α β : Type} [DecidableEq α] : List (α × β) → α → Option β
  | [], _ => none
  | (k, v) :: rest, k' => if k = k' then some v else alookup rest k'

/-- A Go error value held behind an interface: its allocation identity
and whether its dynamic type is `*fraud.ErrNoUnmarshaler` (proof.go).
`ErrNoUnmarshaler` defines only `Error()`; it has no `Is` or `Unwrap`
method. -/
structure ErrPtr where
  id : Nat
  noCodec : Bool
  deriving DecidableEq

/-- `errors.Is(err, target)` for a comparable (pointer) target whose type
defines neither `Is` nor `Unwrap`: interface equality, i.e. equality of
the allocation identities. -/
def goErrorsIs (e target : ErrPtr) : Bool := e.id == target.id

/-- The observable fields of a decoded `fraud.Proof`: `Type()`,
`hex.EncodeToString(HeaderHash())` and `Height()` (proof.go). -/
structure ProofData where
  ptype : ProofType
  hashHex : String
  height : Nat
  deriving DecidableEq

/-- The result of calling out to external (or potentially panicking)
code: either a normal value or a Go panic. -/
inductive Outcome (α : Type) where
  | panics
  | ok (val : α)
  deriving DecidableEq

/-- `fraud.MultiUnmarshaler` (registry.go): the `Unmarshalers` map,
modelled as an association list in iteration order; each registered
unmarshal function either yields a decoded proof or fails with an error
of the given allocation identity (and a dynamic type that is not
`*ErrNoUnmarshaler`). -/
structure MultiUnmarshaler where
  unmarshalers : List (ProofType × (Bytes → Except Nat ProofData))

/-- `MultiUnmarshaler.List` (registry.go): `make([]ProofType, len(m))`
allocates `len(m)` zero-value (empty-string) entries, and the loop then
`append`s every key after them. -/
def MultiUnmarshaler.listTypes (m : MultiUnmarshaler) : List ProofType :=
  List.replicate m.unmarshalers.length "" ++ m.unmarshalers.map Prod.fst

/-- `MultiUnmarshaler.Unmarshal` (registry.go): missing type yields a
freshly allocated `&ErrNoUnmarshaler{ProofType: proofType}` with
allocation identity `allocId`; otherwise the registered function runs. -/
def MultiUnmarshaler.Unmarshal (m : MultiUnmarshaler) (t : ProofType)
    (data : Bytes) (allocId : Nat) : Except ErrPtr ProofData :=
  match alookup m.unmarshalers t with
  | none => .error ⟨allocId, true⟩
  | some f =>
    match f data with
    | .ok p => .ok p
    | .error e => .error ⟨e, false⟩

/-- The shared underlying datastore, keyed by
`(proof type, lowercase-hex header hash)` — the view through the
`/fraud/<type>` namespace wrappers of spec §4.2. -/
abbrev Datastore := List ((ProofType × String) × Bytes)

/-- Datastore read. -/
def dsGet (d : Datastore) (k : ProofType × String) : Option Bytes :=
  alookup d k

/-- Datastore write: sets the key, replacing any previous record. -/
def dsPut (d : Datastore) (k : ProofType × String) (b : Bytes) : Datastore :=
  (k, b) :: d.filter (fun kv => kv.1 != k)

/-- The mutable state of a `ProofService` relevant to the claims: the
underlying datastore contents, the set of proof types whose lazy
per-type store handle has been initialized (`stores` map keys), and the
`verifiers` map (verifier functions named by an identifier). -/
structure SvcState where
  ds : Datastore
  storesInit : List ProofType
  verifiers : List (ProofType × Nat)

/-- Modelled from the spec: the store helper `getByHash` (store.go) is
not among the sources — only its callers and tests are.  Spec §4.2
specifies `get_by_hash(type, hash_hex) → bytes | NotFound` as a plain
lookup of the hex key inside the `/fraud/<type>` partition. -/
def getByHash (d : Datastore) (t : ProofType) (h : String) : Except Unit Bytes :=
  match dsGet d (t, h) with
  | some b => .ok b
  | none => .error ()

/-- `ProofService.verifyLocal` (service.go): if the lazy store handle for
the type has not been initialized, return `false` without touching the
datastore; otherwise read by hash and compare bytes with `bytes.Equal`. -/
def verifyLocal (s : SvcState) (t : ProofType) (h : String) (data : Bytes) : Bool :=
  if s.storesInit.contains t then
    match getByHash s.ds t h with
    | .ok b => b == data
    | .error _ => false
  else false

/-- `pubsub.ValidationResult`. -/
inductive ValidationResult where
  | accept
  | ignore
  | reject
  deriving DecidableEq

/-- The externally visible side effects of one `processIncoming` call:
whether `BlacklistPeer` was called, the record successfully written by
`put` (if any), the proof type whose `put` was attempted (initializing
its lazy store handle), whether `msg.ValidatorData` was set, and whether
the deferred `recover` fired. -/
structure Effects where
  blacklisted : Bool
  stored : Option (ProofType × String × Bytes)
  putType : Option ProofType
  validatorData : Bool
  panicked : Bool
  deriving DecidableEq

/-- The effects record at pipeline entry. -/
def eff0 : Effects := ⟨false, none, none, false, false⟩

/-- The results of the external calls one `processIncoming` invocation
makes, together with the incoming message: `msg.Data`, the topic's bound
proof type, the unmarshal result (with the allocation identity of the
fresh `&ErrNoUnmarshaler{}` compared against by `errors.Is`), the head
and header fetch results, the behaviour of each verifier function, the
`proof.Validate(extHeader)` result, and whether the store `put`
succeeds. -/
structure Env where
  msgData : Bytes
  topicType : ProofType
  decode : Outcome (Except ErrPtr ProofData)
  freshTargetId : Nat
  headRes : Outcome (Except Unit Nat)
  headerRes : Outcome (Except Unit Unit)
  verifierRun : Nat → Outcome (Bool × Option Nat)
  validateRes : Outcome (Option Nat)
  putOk : Bool

/-- Stages 7–8 of `processIncoming` (service.go): `proof.Validate` error
blacklists the sender and rejects; otherwise `put` is attempted — its
failure is logged only, the verdict is `Accept` either way. -/
def validateAndStore (env : Env) (p : ProofData) (eff : Effects) :
    ValidationResult × Effects :=
  match env.validateRes with
  | .panics => (.reject, { eff with panicked := true })
  | .ok (some _) => (.reject, { eff with blacklisted := true })
  | .ok none =>
    let eff' := { eff with putType := some p.ptype }
    if env.putOk then
      (.accept, { eff' with stored := some (p.ptype, p.hashHex, env.msgData) })
    else
      (.accept, eff')

/-- Running one registered verifier (service.go): a non-nil error
rejects, a `false` status rejects, `(true, nil)` continues. -/
def runVerifier (res : Outcome (Bool × Option Nat)) (eff : Effects)
    (cont : Effects → ValidationResult × Effects) : ValidationResult × Effects :=
  match res with
  | .panics => (.reject, { eff with panicked := true })
  | .ok (_, some _) => (.reject, eff)
  | .ok (false, none) => (.reject, eff)
  | .ok (true, none) => cont eff

/-- Stage 6 of `processIncoming`: look up `f.verifiers[proofType]` (the
topic's type) and run it when present. -/
def verifierStage (s : SvcState) (env : Env) (p : ProofData) (eff : Effects) :
    ValidationResult × Effects :=
  match alookup s.verifiers env.topicType with
  | some v => runVerifier (env.verifierRun v) eff (validateAndStore env p)
  | none => validateAndStore env p eff

/-- Stage 5 of `processIncoming`: fetch the header at `proof.Height()`;
failure yields `Ignore`. -/
def headerStage (s : SvcState) (env : Env) (p : ProofData) (eff : Effects) :
    ValidationResult × Effects :=
  match env.headerRes with
  | .panics => (.reject, { eff with panicked := true })
  | .ok (.error _) => (.ignore, eff)
  | .ok (.ok _) => verifierStage s env p eff

/-- The head bound test of `processIncoming` line 284:
`head.Height()+headThreshold < proof.Height()` in `uint64` arithmetic,
so the sum wraps modulo `2 ^ 64`. -/
def headCheckRejects (head height : Nat) : Bool :=
  (head + headThreshold) % UINT64 < height

/-- Stage 4 of `processIncoming`: fetch the network head (failure yields
`Ignore`), reject above the threshold, else set `msg.ValidatorData` and
continue. -/
def headStage (s : SvcState) (env : Env) (p : ProofData) (eff : Effects) :
    ValidationResult × Effects :=
  match env.headRes with
  | .panics => (.reject, { eff with panicked := true })
  | .ok (.error _) => (.ignore, eff)
  | .ok (.ok head) =>
    if headCheckRejects head p.height then
      (.reject, eff)
    else
      headerStage s env p { eff with validatorData := true }

/-- `ProofService.processIncoming` (service.go): decode — on failure
reject, blacklisting unless `errors.Is(err, &ErrNoUnmarshaler{})` holds
(which compares against a freshly allocated target) — then the local
duplicate check (`Ignore` on a byte-identical known proof), then the
remaining stages.  A panic in any stage is recovered into `Reject`. -/
def processIncoming (s : SvcState) (env : Env) : ValidationResult × Effects :=
  match env.decode with
  | .panics => (.reject, { eff0 with panicked := true })
  | .ok (.error e) =>
    if goErrorsIs e ⟨env.freshTargetId, true⟩ then
      (.reject, eff0)
    else
      (.reject, { eff0 with blacklisted := true })
  | .ok (.ok p) =>
    if verifyLocal s env.topicType p.hashHex env.msgData then
      (.ignore, eff0)
    else
      headStage s env p eff0

/-- Modelled from the spec: the store helpers `initStore` and `put`
(store.go) are not among the sources.  Spec §4.2: `put` writes the raw
bytes under the hex key of the type's partition; service.go `put`
initializes the lazy store handle first.  The state after one
`processIncoming` call: the attempted `put` initializes the handle, and
a successful `put` writes the record. -/
def stepState (s : SvcState) (env : Env) : SvcState :=
  let eff := (processIncoming s env).2
  { ds :=
      match eff.stored with
      | some (t, h, d) => dsPut s.ds (t, h) d
      | none => s.ds
    storesInit :=
      match eff.putType with
      | some t => t :: s.storesInit
      | none => s.storesInit
    verifiers := s.verifiers }

/-- Iterated pipeline invocations. -/
def run (s : SvcState) : List Env → SvcState
  | [] => s
  | e :: es => run (stepState s e) es

/-- `ProofService.AddVerifier` (service.go): fails if a verifier for the
type already exists, otherwise installs it. -/
def AddVerifier (s : SvcState) (t : ProofType) (v : Nat) : Except Unit SvcState :=
  match alookup s.verifiers t with
  | some _ => .error ()
  | none => .ok { s with verifiers := (t, v) :: s.verifiers }

/-- A sequence of later `AddVerifier` calls; a failed call leaves the
state unchanged. -/
def runAdds (s : SvcState) : List (ProofType × Nat) → SvcState
  | [] => s
  | (t, v) :: rest =>
    match AddVerifier s t v with
    | .ok s' => runAdds s' rest
    | .error _ => runAdds s rest

/-- The error kinds `ProofService.Broadcast` (service.go) can return:
the `MarshalBinary` error, the `"unmarshaler for %s proof is not
registered"` error when no topic exists for the proof's type, and the
`Topic.Publish` error. -/
inductive BroadcastErr where
  | marshalFail (e : Nat)
  | notRegistered (t : ProofType)
  | publishFail (e : Nat)
  deriving DecidableEq

/-- Classifies a `Broadcast` error as a marshal failure or a transport
publish error. -/
def BroadcastErr.isMarshalOrPublish : BroadcastErr → Bool
  | .marshalFail _ => true
  | .publishFail _ => true
  | .notRegistered _ => false

/-- `ProofService.Broadcast` (service.go): marshal, look up the topic
for `p.Type()`, publish.  `topics` maps proof types to topic handles;
`publish` gives the transport's result for a handle and payload
(`none` = success). -/
def Broadcast (marshalRes : Except Nat Bytes) (topics : List (ProofType × Nat))
    (publish : Nat → Bytes → Option Nat) (t : ProofType) : Option BroadcastErr :=
  match marshalRes with
  | .error e => some (.marshalFail e)
  | .ok bin =>
    match alookup topics t with
    | none => some (.notRegistered t)
    | some topic => (publish topic bin).map .publishFail

/-- `errors.Join` over its argument list: nil errors are discarded; the
result is nil iff every argument is nil, otherwise it wraps the non-nil
ones. -/
def errorsJoin (es : List (Option Nat)) : Option (List Nat) :=
  match es.filterMap id with
  | [] => none
  | l => some l

/-- The error accumulation of `ProofService.Stop` (service.go): for each
topic in iteration order it executes `err = errors.Join(topic.Close())`,
overwriting `err` with the join of the single latest close result.
`closeResults` lists each topic's `Close()` result in iteration order
(`none` = success). -/
def Stop (closeResults : List (Option Nat)) : Option (List Nat) :=
  closeResults.foldl (fun _ c => errorsJoin [c]) none

/-- An environment that was accepted with full validation for record
`(t, h, d)` under verifier table `vs`: the proof decoded with matching
type and hash, the message bytes are the stored bytes, `Validate`
returned nil, and any registered verifier for the topic's type returned
`(true, nil)`. -/
def envAccepted (vs : List (ProofType × Nat)) (env : Env)
    (t : ProofType) (h : String) (d : Bytes) : Prop :=
  ∃ p, env.decode = .ok (.ok p) ∧ p.ptype = t ∧ p.hashHex = h ∧
    env.msgData = d ∧ env.validateRes = .ok none ∧
    ∀ v, alookup vs env.topicType = some v → env.verifierRun v = .ok (true, none)

/-- The empty service state. -/
def s0 : SvcState := ⟨[], [], []⟩

/-- A benign environment template: decode succeeds with proof
`("t", "h", height)`, every fetch succeeds, no verifier misbehaves,
`Validate` passes, `put` succeeds. -/
def benignEnv (height : Nat) (head : Nat) (data : Bytes) : Env :=
  { msgData := data
    topicType := "t"
    decode := .ok (.ok ⟨"t", "h", height⟩)
    freshTargetId := 0
    headRes := .ok (.ok head)
    headerRes := .ok (.ok ())
    verifierRun := fun _ => .ok (true, none)
    validateRes := .ok none
    putOk := true }

/-- The environment of the C1 counterexample: the head fetch returns
`2 ^ 64 - 1` and the proof claims height `2 ^ 64 - 1`. -/
def envHeadMax : Env := benignEnv (UINT64 - 1) (UINT64 - 1) []

/-- The environment of the C1 witness: head `10`, proof height `31`. -/
def envHeight31 : Env := benignEnv 31 10 []

/-- A state whose datastore holds `[1]` under `("t", "h")` with the
per-type store handle for `"t"` initialized. -/
def sHolds1 : SvcState := ⟨[(("t", "h"), [1])], ["t"], []⟩

/-- A state whose datastore holds `[1]` under `("t", "h")` but whose
lazy store handle for `"t"` has not been initialized. -/
def sHolds1Uninit : SvcState := ⟨[(("t", "h"), [1])], [], []⟩

/-- An empty codec registry. -/
def m0 : MultiUnmarshaler := ⟨[]⟩

/-- A registry with a single registered type, `"DummyProof"`
(fraudtest/dummy_proof.go). -/
def m1 : MultiUnmarshaler := ⟨[("DummyProof", fun _ => .error 0)]⟩

/-- The environment of the C3 witness: decoding fails with a
`*ErrNoUnmarshaler` allocated at identity `0`, while the `errors.Is`
target is the distinct fresh allocation `1`. -/
def envNoCodec : Env := { benignEnv 1 10 [] with
  decode := .ok (.error ⟨0, true⟩), freshTargetId := 1 }

/-- The environment of the C5 witness: `proof.Validate` panics (as
`fraudtest.DummyProof.Validate` does for a panicking proof). -/
def envValidatePanics : Env := { benignEnv 1 10 [] with validateRes := .panics }

/-- A state with verifier `5` registered for type `"t"`. -/
def sVerifier5 : SvcState := ⟨[], [], [("t", 5)]⟩

end GoFraud

namespace GoFraud

theorem verifyLocal_false_of_not_init (s : SvcState) (t : ProofType)
    (h : String) (data : Bytes) (hinit : s.storesInit.contains t = false) :
    verifyLocal s t h data = false := by
  rw [verifyLocal, hinit]
  simp

/-- Claim C1 (counterexample): with the network head fetched as
`2 ^ 64 - 1` and an incoming proof of height `2 ^ 64 - 1`, the proof's
height does not exceed `head + 20`, yet `uint64` wrap-around in
`head.Height()+headThreshold` makes the check reject: the pipeline
returns `Reject` even though the claim says this check passes. -/
theorem c1_overflow_counterexample :
    processIncoming s0 envHeadMax = (.reject, eff0) ∧
      UINT64 - 1 ≤ (UINT64 - 1) + headThreshold := by
  constructor
  · rfl
  · exact Nat.le_add_right _ _

/-- Claim C1 (amended): provided `head.Height() + 20` does not overflow
`uint64`, for every message that reaches the head bound check with the
head fetched successfully: a proof height of at most `head + 20` passes
the check and the pipeline continues to the later stages, while a proof
height of at least `head + 21` makes the pipeline return `Reject`. -/
theorem c1_head_threshold (s : SvcState) (env : Env) (p : ProofData)
    (head : Nat) (hdec : env.decode = .ok (.ok p))
    (hdup : verifyLocal s env.topicType p.hashHex env.msgData = false)
    (hhead : env.headRes = .ok (.ok head))
    (hof : head + headThreshold < UINT64) :
    (p.height ≤ head + headThreshold →
      headCheckRejects head p.height = false ∧
        processIncoming s env =
          headerStage s env p { eff0 with validatorData := true }) ∧
    (head + headThreshold + 1 ≤ p.height →
      processIncoming s env = (.reject, eff0)) := by
  have hmod : (head + headThreshold) % UINT64 = head + headThreshold :=
    Nat.mod_eq_of_lt hof
  constructor
  · intro hle
    have hchk : headCheckRejects head p.height = false := by
      simp [headCheckRejects, hmod]
      omega
    refine ⟨hchk, ?_⟩
    simp [processIncoming, hdec, hdup, headStage, hhead, hchk]
  · intro hge
    have hchk : headCheckRejects head p.height = true := by
      simp [headCheckRejects, hmod]
      omega
    simp [processIncoming, hdec, hdup, headStage, hhead, hchk]

/-- Claim C1 (witness): with head `10` and proof height `31 = 10 + 21`,
the pipeline returns `Reject`. -/
theorem c1_head_threshold_witness :
    processIncoming s0 envHeight31 = (.reject, eff0) :=
  (c1_head_threshold s0 envHeight31 ⟨"t", "h", 31⟩ 10 rfl rfl rfl
    (by decide)).2 (by decide)

/-- Claim C2 (counterexample): the store holds `[1]` under
`("t", "h")`, the incoming message for that key carries the different
bytes `[2]`, and the pipeline does not reject the message — it runs to
completion and `Accept`s it (overwriting the store), contradicting the
claim that a differing stored record makes the message rejected as
invalid. -/
theorem c2_differing_bytes_counterexample :
    dsGet sHolds1.ds ("t", "h") = some [1] ∧
      ([1] : Bytes) ≠ [2] ∧
      processIncoming sHolds1 (benignEnv 1 10 [2]) =
        (.accept, ⟨false, some ("t", "h", [2]), some "t", true, false⟩) := by
  refine ⟨rfl, by decide, rfl⟩

/-- Claim C2 (amended): for every incoming message whose proof decodes
successfully and whose per-type store handle is initialized: if the
store holds, under `(type, hex(proof.HeaderHash()))`, bytes equal to the
incoming message bytes, the pipeline returns `Ignore`; if the stored
bytes differ from the incoming bytes, the message is not treated as a
duplicate — `verifyLocal` returns `false` and the pipeline continues
with the remaining stages. -/
theorem c2_duplicate_check (s : SvcState) (env : Env) (p : ProofData)
    (hdec : env.decode = .ok (.ok p))
    (hinit : s.storesInit.contains env.topicType = true) :
    (dsGet s.ds (env.topicType, p.hashHex) = some env.msgData →
      processIncoming s env = (.ignore, eff0)) ∧
    (∀ b, dsGet s.ds (env.topicType, p.hashHex) = some b → b ≠ env.msgData →
      verifyLocal s env.topicType p.hashHex env.msgData = false ∧
        processIncoming s env = headStage s env p eff0) := by
  constructor
  · intro hds
    have hv : verifyLocal s env.topicType p.hashHex env.msgData = true := by
      rw [verifyLocal, hinit]
      simp [getByHash, hds]
    simp [processIncoming, hdec, hv]
  · intro b hds hne
    have hv : verifyLocal s env.topicType p.hashHex env.msgData = false := by
      rw [verifyLocal, hinit]
      simp [getByHash, hds]
      exact hne
    refine ⟨hv, ?_⟩
    simp [processIncoming, hdec, hv]

/-- Claim C2 (witness): with `[1]` stored under `("t", "h")` and an
identical incoming message, the pipeline returns `Ignore`. -/
theorem c2_duplicate_check_witness :
    processIncoming sHolds1 (benignEnv 1 10 [1]) = (.ignore, eff0) :=
  (c2_duplicate_check sHolds1 (benignEnv 1 10 [1]) ⟨"t", "h", 1⟩
    rfl rfl).1 rfl

/-- Claim C3 (divergence): when `Unmarshal` fails with the
no-registered-unmarshaler error, `errors.Is(err, &ErrNoUnmarshaler{})`
compares the error against a freshly allocated target by pointer
equality (the type has no `Is` method), so it is false and the pipeline
blacklists the origin peer — contrary to the claim that a `NoCodec`
decode failure must not blacklist.  Every other decode error also
blacklists, as the claim states. -/
theorem c3_nocodec_blacklists (s : SvcState) (env : Env)
    (m : MultiUnmarshaler) (allocId : Nat)
    (hreg : alookup m.unmarshalers env.topicType = none)
    (hdec : env.decode = .ok (.error ⟨allocId, true⟩))
    (hfresh : allocId ≠ env.freshTargetId) :
    m.Unmarshal env.topicType env.msgData allocId = .error ⟨allocId, true⟩ ∧
      processIncoming s env = (.reject, { eff0 with blacklisted := true }) := by
  constructor
  · simp [MultiUnmarshaler.Unmarshal, hreg]
  · have his : goErrorsIs ⟨allocId, true⟩ ⟨env.freshTargetId, true⟩ = false := by
      simp [goErrorsIs]
      exact hfresh
    simp [processIncoming, hdec, his]

/-- Claim C3 (witness): concrete unknown-type message — the registry is
empty, the error is allocated at identity `0`, the `errors.Is` target at
identity `1` — and the pipeline rejects with the peer blacklisted. -/
theorem c3_nocodec_blacklists_witness :
    m0.Unmarshal "t" [] 0 = .error ⟨0, true⟩ ∧
      processIncoming s0 envNoCodec = (.reject, { eff0 with blacklisted := true }) :=
  c3_nocodec_blacklists s0 envNoCodec m0 0 rfl rfl (by decide)

theorem validateAndStore_panicked (env : Env) (p : ProofData) (eff : Effects)
    (hb : eff.blacklisted = false) (hp : eff.panicked = false) :
    (validateAndStore env p eff).2.panicked = true →
      (validateAndStore env p eff).1 = .reject ∧
        (validateAndStore env p eff).2.blacklisted = false := by
  unfold validateAndStore
  split <;> (try split) <;> simp_all

theorem verifierStage_panicked (s : SvcState) (env : Env) (p : ProofData)
    (eff : Effects) (hb : eff.blacklisted = false) (hp : eff.panicked = false) :
    (verifierStage s env p eff).2.panicked = true →
      (verifierStage s env p eff).1 = .reject ∧
        (verifierStage s env p eff).2.blacklisted = false := by
  unfold verifierStage runVerifier
  split
  · split
    · exact fun _ => ⟨rfl, hb⟩
    · exact fun _ => ⟨rfl, hb⟩
    · exact fun _ => ⟨rfl, hb⟩
    · exact validateAndStore_panicked env p eff hb hp
  · exact validateAndStore_panicked env p eff hb hp

theorem headerStage_panicked (s : SvcState) (env : Env) (p : ProofData)
    (eff : Effects) (hb : eff.blacklisted = false) (hp : eff.panicked = false) :
    (headerStage s env p eff).2.panicked = true →
      (headerStage s env p eff).1 = .reject ∧
        (headerStage s env p eff).2.blacklisted = false := by
  unfold headerStage
  split
  · exact fun _ => ⟨rfl, hb⟩
  · simp_all
  · exact verifierStage_panicked s env p eff hb hp

theorem headStage_panicked (s : SvcState) (env : Env) (p : ProofData)
    (eff : Effects) (hb : eff.blacklisted = false) (hp : eff.panicked = false) :
    (headStage s env p eff).2.panicked = true →
      (headStage s env p eff).1 = .reject ∧
        (headStage s env p eff).2.blacklisted = false := by
  unfold headStage
  split
  · exact fun _ => ⟨rfl, hb⟩
  · simp_all
  · split
    · simp_all
    · exact headerStage_panicked s env p _ hb hp

/-- Claim C5: whenever the pipeline's deferred `recover` fires — any
stage panicked — the verdict is `Reject` and the origin peer has not
been blacklisted in that invocation. -/
theorem c5_panic_rejects (s : SvcState) (env : Env)
    (hpan : (processIncoming s env).2.panicked = true) :
    (processIncoming s env).1 = .reject ∧
      (processIncoming s env).2.blacklisted = false := by
  revert hpan
  unfold processIncoming
  split
  · exact fun _ => ⟨rfl, rfl⟩
  · split <;> simp_all [eff0]
  · split
    · simp_all [eff0]
    · exact headStage_panicked s env _ eff0 rfl rfl

/-- Claim C5 (witness): `proof.Validate` panics on a concrete message
(as `fraudtest.DummyProof.Validate` does for a panicking proof); the
pipeline rejects and does not blacklist. -/
theorem c5_panic_rejects_witness :
    (processIncoming s0 envValidatePanics).1 = .reject ∧
      (processIncoming s0 envValidatePanics).2.blacklisted = false :=
  c5_panic_rejects s0 envValidatePanics rfl

/-- Claim C7 (counterexample): with a proof that marshals fine but whose
type has no registered topic, `Broadcast` returns the unregistered-type
error, which is neither a marshal failure nor a transport publish error
— a third error kind the claim excludes. -/
theorem c7_not_registered_counterexample :
    Broadcast (.ok []) [] (fun _ _ => none) "x" = some (.notRegistered "x") ∧
      (BroadcastErr.notRegistered "x").isMarshalOrPublish = false :=
  ⟨rfl, rfl⟩

/-- Claim C7 (amended): `Broadcast` marshals, looks up the topic for the
proof's type, and publishes; the errors it can return are exactly a
marshal failure, the "unmarshaler for this proof is not registered"
error when no topic exists for the type, and the transport publish
error — a proof rejected by the validation pipeline surfaces through no
further Broadcast error kind. -/
theorem c7_broadcast_error_kinds (marshalRes : Except Nat Bytes)
    (topics : List (ProofType × Nat)) (publish : Nat → Bytes → Option Nat)
    (t : ProofType) (e : BroadcastErr)
    (h : Broadcast marshalRes topics publish t = some e) :
    (∃ n, marshalRes = .error n ∧ e = .marshalFail n) ∨
      ((∃ b, marshalRes = .ok b) ∧ alookup topics t = none ∧
        e = .notRegistered t) ∨
      (∃ b tp n, marshalRes = .ok b ∧ alookup topics t = some tp ∧
        publish tp b = some n ∧ e = .publishFail n) := by
  cases hm : marshalRes with
  | error n =>
    simp [Broadcast, hm] at h
    exact Or.inl ⟨n, rfl, h.symm⟩
  | ok b =>
    cases hl : alookup topics t with
    | none =>
      simp [Broadcast, hm, hl] at h
      exact Or.inr (Or.inl ⟨⟨b, rfl⟩, rfl, h.symm⟩)
    | some tp =>
      cases hp : publish tp b with
      | none => simp [Broadcast, hm, hl, hp] at h
      | some n =>
        simp [Broadcast, hm, hl, hp] at h
        exact Or.inr (Or.inr ⟨b, tp, n, rfl, rfl, hp, h.symm⟩)

/-- Claim C7 (witness): a concrete marshal failure is classified as the
marshal error kind. -/
theorem c7_broadcast_error_kinds_witness :
    (∃ n, (Except.error 7 : Except Nat Bytes) = .error n ∧
      BroadcastErr.marshalFail 7 = .marshalFail n) ∨
      ((∃ b, (Except.error 7 : Except Nat Bytes) = .ok b) ∧
        alookup ([] : List (ProofType × Nat)) "t" = none ∧
        BroadcastErr.marshalFail 7 = .notRegistered "t") ∨
      (∃ b tp n, (Except.error 7 : Except Nat Bytes) = .ok b ∧
        alookup ([] : List (ProofType × Nat)) "t" = some tp ∧
        (fun (_ : Nat) (_ : Bytes) => (none : Option Nat)) tp b = some n ∧
        BroadcastErr.marshalFail 7 = .publishFail n) :=
  c7_broadcast_error_kinds (.error 7) [] (fun _ _ => none) "t"
    (.marshalFail 7) rfl

/-- Claim C8 (divergence): `Stop` executes
`err = errors.Join(topic.Close())`, overwriting the accumulator on
every iteration, so only the last topic's close result survives: with
close results `[some 1, none]` (first topic fails, second closes
cleanly) it returns no error at all, and with `[some 1, some 2]` it
returns only the second error — the claim's aggregate of all close
errors is not produced. -/
theorem c8_stop_drops_errors :
    Stop [some 1, none] = none ∧ Stop [some 1, some 2] = some [2] :=
  ⟨rfl, rfl⟩

/-- Claim C9 (divergence): `MultiUnmarshaler.List` pre-sizes the slice
with `make([]ProofType, len)` and then appends, so for the registry with
the single registered type `"DummyProof"` it returns
`["", "DummyProof"]`: a leading zero-value entry appears and the length
is twice the number of registered types — not the tightly-packed list
the claim states. -/
theorem c9_list_padded :
    m1.unmarshalers.map Prod.fst = ["DummyProof"] ∧
      m1.listTypes = ["", "DummyProof"] ∧
      m1.listTypes.length = 2 ∧ "" ∈ m1.listTypes := by
  exact ⟨rfl, rfl, rfl, by decide⟩

/-- Claim C10: when the lazy per-type store handle for the topic's type
has not been initialized, `verifyLocal` returns `false` without
consulting the underlying datastore — even when the datastore already
holds a byte-identical record — so the pipeline never `Ignore`s the
message as a duplicate and continues past the duplicate check. -/
theorem c10_uninitialized_store_no_dup (s : SvcState) (env : Env)
    (p : ProofData)
    (hinit : s.storesInit.contains env.topicType = false)
    (_hds : dsGet s.ds (env.topicType, p.hashHex) = some env.msgData)
    (hdec : env.decode = .ok (.ok p)) :
    verifyLocal s env.topicType p.hashHex env.msgData = false ∧
      processIncoming s env = headStage s env p eff0 := by
  have hv := verifyLocal_false_of_not_init s env.topicType p.hashHex
    env.msgData hinit
  exact ⟨hv, by simp [processIncoming, hdec, hv]⟩

theorem validateAndStore_stored (env : Env) (p : ProofData) (eff : Effects)
    (he : eff.stored = none) (t : ProofType) (h : String) (d : Bytes) :
    (validateAndStore env p eff).2.stored = some (t, h, d) →
      env.validateRes = .ok none ∧ t = p.ptype ∧ h = p.hashHex ∧
        d = env.msgData := by
  unfold validateAndStore
  split <;> (try split) <;> simp_all

theorem verifierStage_stored (s : SvcState) (env : Env) (p : ProofData)
    (eff : Effects) (he : eff.stored = none) (t : ProofType) (h : String)
    (d : Bytes) :
    (verifierStage s env p eff).2.stored = some (t, h, d) →
      (∀ v, alookup s.verifiers env.topicType = some v →
        env.verifierRun v = .ok (true, none)) ∧
      env.validateRes = .ok none ∧ t = p.ptype ∧ h = p.hashHex ∧
        d = env.msgData := by
  intro hs
  cases hl : alookup s.verifiers env.topicType with
  | none =>
    simp only [verifierStage, hl] at hs
    exact ⟨(fun v hv => nomatch hv), validateAndStore_stored env p eff he t h d hs⟩
  | some v₀ =>
    simp only [verifierStage, hl] at hs
    cases hr : env.verifierRun v₀ with
    | panics =>
      simp only [runVerifier, hr] at hs
      simp [he] at hs
    | ok pr =>
      obtain ⟨status, errv⟩ := pr
      cases errv with
      | some e =>
        simp only [runVerifier, hr] at hs
        simp [he] at hs
      | none =>
        cases status with
        | false =>
          simp only [runVerifier, hr] at hs
          simp [he] at hs
        | true =>
          simp only [runVerifier, hr] at hs
          refine ⟨fun v hv => ?_, validateAndStore_stored env p eff he t h d hs⟩
          injection hv with hv'
          subst hv'
          exact hr

theorem headerStage_stored (s : SvcState) (env : Env) (p : ProofData)
    (eff : Effects) (he : eff.stored = none) (t : ProofType) (h : String)
    (d : Bytes) :
    (headerStage s env p eff).2.stored = some (t, h, d) →
      (∀ v, alookup s.verifiers env.topicType = some v →
        env.verifierRun v = .ok (true, none)) ∧
      env.validateRes = .ok none ∧ t = p.ptype ∧ h = p.hashHex ∧
        d = env.msgData := by
  intro hs
  cases hh : env.headerRes with
  | panics =>
    simp only [headerStage, hh] at hs
    simp [he] at hs
  | ok r0 =>
    cases r0 with
    | error e =>
      simp only [headerStage, hh] at hs
      simp [he] at hs
    | ok u =>
      simp only [headerStage, hh] at hs
      exact verifierStage_stored s env p eff he t h d hs

theorem headStage_stored (s : SvcState) (env : Env) (p : ProofData)
    (eff : Effects) (he : eff.stored = none) (t : ProofType) (h : String)
    (d : Bytes) :
    (headStage s env p eff).2.stored = some (t, h, d) →
      (∀ v, alookup s.verifiers env.topicType = some v →
        env.verifierRun v = .ok (true, none)) ∧
      env.validateRes = .ok none ∧ t = p.ptype ∧ h = p.hashHex ∧
        d = env.msgData := by
  intro hs
  cases hh : env.headRes with
  | panics =>
    simp only [headStage, hh] at hs
    simp [he] at hs
  | ok r0 =>
    cases r0 with
    | error e =>
      simp only [headStage, hh] at hs
      simp [he] at hs
    | ok head =>
      simp only [headStage, hh] at hs
      cases hc : headCheckRejects head p.height with
      | true =>
        simp only [hc, if_true] at hs
        simp [he] at hs
      | false =>
        simp only [hc] at hs
        simp only [Bool.false_eq_true, if_false] at hs
        exact headerStage_stored s env p { eff with validatorData := true }
          he t h d hs

theorem processIncoming_stored (s : SvcState) (env : Env) (t : ProofType)
    (h : String) (d : Bytes)
    (hs : (processIncoming s env).2.stored = some (t, h, d)) :
    envAccepted s.verifiers env t h d := by
  cases hd : env.decode with
  | panics =>
    simp only [processIncoming, hd] at hs
    simp [eff0] at hs
  | ok r0 =>
    cases r0 with
    | error e =>
      simp only [processIncoming, hd] at hs
      cases hgi : goErrorsIs e ⟨env.freshTargetId, true⟩ <;>
        simp [hgi, eff0] at hs
    | ok p =>
      simp only [processIncoming, hd] at hs
      cases hv : verifyLocal s env.topicType p.hashHex env.msgData with
      | true =>
        simp only [hv, if_true] at hs
        simp [eff0] at hs
      | false =>
        simp only [hv, Bool.false_eq_true, if_false] at hs
        obtain ⟨hver, hval, ht, hh, hd2⟩ :=
          headStage_stored s env p eff0 rfl t h d hs
        exact ⟨p, hd, ht.symm, hh.symm, hd2.symm, hval, hver⟩

theorem stepState_verifiers (s : SvcState) (env : Env) :
    (stepState s env).verifiers = s.verifiers := rfl

theorem stepState_ds_mem (s : SvcState) (env : Env)
    (r : (ProofType × String) × Bytes) (hr : r ∈ (stepState s env).ds) :
    r ∈ s.ds ∨ (processIncoming s env).2.stored = some (r.1.1, r.1.2, r.2) := by
  revert hr
  show r ∈ (match (processIncoming s env).2.stored with
      | some (t, h, d) => dsPut s.ds (t, h) d
      | none => s.ds) → _
  cases hst : (processIncoming s env).2.stored with
  | none => exact fun hr => Or.inl hr
  | some rec3 =>
    obtain ⟨t, h, d⟩ := rec3
    intro hr
    have hr2 : r = ((t, h), d) ∨ r ∈ s.ds.filter (fun kv => kv.1 != (t, h)) := by
      simpa [dsPut] using hr
    rcases hr2 with heq | hmem
    · subst heq
      exact Or.inr rfl
    · exact Or.inl (List.mem_filter.1 hmem).1

theorem run_ds_mem (envs : List Env) (s : SvcState)
    (r : (ProofType × String) × Bytes) (hr : r ∈ (run s envs).ds) :
    r ∈ s.ds ∨ ∃ env ∈ envs, envAccepted s.verifiers env r.1.1 r.1.2 r.2 := by
  induction envs generalizing s with
  | nil => exact Or.inl hr
  | cons e es ih =>
    rw [run] at hr
    rcases ih (stepState s e) hr with h1 | h2
    · rcases stepState_ds_mem s e r h1 with hm | hstored
      · exact Or.inl hm
      · exact Or.inr ⟨e, List.mem_cons_self e es,
          processIncoming_stored s e _ _ _ hstored⟩
    · obtain ⟨env, henv, hacc⟩ := h2
      rw [stepState_verifiers] at hacc
      exact Or.inr ⟨env, List.mem_cons_of_mem e henv, hacc⟩

/-- Claim C4: starting from an empty store, every record the service's
store comes to hold was written by a pipeline invocation in which any
registered custom verifier for the topic's type returned `(true, nil)`
and `proof.Validate` (against the header fetched for the proof's
height) returned no error — the store never contains a proof whose
validation failed at acceptance time. -/
theorem c4_store_only_validated (s : SvcState) (envs : List Env)
    (hempty : s.ds = []) (t : ProofType) (h : String) (d : Bytes)
    (hr : ((t, h), d) ∈ (run s envs).ds) :
    ∃ env ∈ envs, envAccepted s.verifiers env t h d := by
  rcases run_ds_mem envs s ((t, h), d) hr with h1 | h2
  · rw [hempty] at h1
    cases h1
  · exact h2

/-- Claim C4 (witness): after one accepted message the store holds its
record, and the claim exhibits the accepting environment. -/
theorem c4_store_only_validated_witness :
    ∃ env ∈ [benignEnv 1 10 [5]], envAccepted s0.verifiers env "t" "h" [5] :=
  c4_store_only_validated s0 [benignEnv 1 10 [5]] rfl "t" "h" [5] (by decide)

/-- Claim C6: verifier registration is single-shot and permanent: a
first `AddVerifier` for a type succeeds and installs the verifier, any
later `AddVerifier` for that type fails, no sequence of further
registration calls can replace or remove the installed verifier, and
the validation pipeline runs exactly the installed verifier. -/
theorem c6_verifier_single_shot (t : ProofType) (v : Nat) :
    (∀ s, alookup s.verifiers t = none →
      AddVerifier s t v = .ok { s with verifiers := (t, v) :: s.verifiers }) ∧
    (∀ s w, alookup s.verifiers t = some v → AddVerifier s t w = .error ()) ∧
    (∀ s calls, alookup s.verifiers t = some v →
      alookup (runAdds s calls).verifiers t = some v) ∧
    (∀ s env p eff v', alookup s.verifiers env.topicType = some v' →
      verifierStage s env p eff =
        runVerifier (env.verifierRun v') eff (validateAndStore env p)) := by
  refine ⟨fun s hnone => ?_, fun s w hsome => ?_, fun s calls => ?_,
    fun s env p eff v' hsome => ?_⟩
  · simp [AddVerifier, hnone]
  · simp [AddVerifier, hsome]
  · induction calls generalizing s with
    | nil => exact fun h => h
    | cons c rest ih =>
      obtain ⟨t', v'⟩ := c
      intro hsome
      cases hl : alookup s.verifiers t' with
      | some w =>
        have : runAdds s ((t', v') :: rest) = runAdds s rest := by
          simp [runAdds, AddVerifier, hl]
        rw [this]
        exact ih s hsome
      | none =>
        have hne : t' ≠ t := by
          intro he
          rw [he, hsome] at hl
          cases hl
        have : runAdds s ((t', v') :: rest) =
            runAdds { s with verifiers := (t', v') :: s.verifiers } rest := by
          simp [runAdds, AddVerifier, hl]
        rw [this]
        refine ih _ ?_
        simp [alookup, hne]
        exact hsome
  · simp [verifierStage, hsome]

/-- Claim C6 (witness): concrete single-shot registration of verifier
`5` for type `"t"`: the first call installs it, a second call fails, a
burst of later calls cannot displace it, and the pipeline stage runs
verifier `5`. -/
theorem c6_verifier_single_shot_witness :
    AddVerifier s0 "t" 5 = .ok { s0 with verifiers := [("t", 5)] } ∧
      AddVerifier sVerifier5 "t" 9 = .error () ∧
      alookup (runAdds sVerifier5 [("t", 9), ("u", 3)]).verifiers "t" =
        some 5 ∧
      verifierStage sVerifier5 (benignEnv 1 10 []) ⟨"t", "h", 1⟩ eff0 =
        runVerifier ((benignEnv 1 10 []).verifierRun 5) eff0
          (validateAndStore (benignEnv 1 10 []) ⟨"t", "h", 1⟩) :=
  ⟨(c6_verifier_single_shot "t" 5).1 s0 rfl,
    (c6_verifier_single_shot "t" 5).2.1 sVerifier5 9 rfl,
    (c6_verifier_single_shot "t" 5).2.2.1 sVerifier5 [("t", 9), ("u", 3)] rfl,
    (c6_verifier_single_shot "t" 5).2.2.2 sVerifier5 (benignEnv 1 10 [])
      ⟨"t", "h", 1⟩ eff0 5 rfl⟩

/-- Claim C10 (witness): the datastore holds `[1]` under `("t", "h")`
from a previous run, the handle is uninitialized, and the identical
incoming message is not treated as a duplicate. -/
theorem c10_uninitialized_store_no_dup_witness :
    verifyLocal sHolds1Uninit "t" "h" [1] = false ∧
      processIncoming sHolds1Uninit (benignEnv 1 10 [1]) =
        headStage sHolds1Uninit (benignEnv 1 10 [1]) ⟨"t", "h", 1⟩ eff0 :=
  c10_uninitialized_store_no_dup sHolds1Uninit (benignEnv 1 10 [1])
    ⟨"t", "h", 1⟩ rfl rfl rfl

end GoFraud
